import Mathlib

/-!
Verification development for the FX automatic trading robot
(`src/Experts/FXAtomaticTrading.py`).

The source is embedded shallowly:
* Python floats are modelled by `FP`: NaN, the two infinities, and exact
  rationals for the finite values (finite arithmetic is exact; overflow of
  finite values to infinity is not modelled, it plays no role in the claims).
* One iteration of `main_loop`'s `while True` body is the pure function
  `cycle`, taking the per-cycle external data (indicator values, signal,
  clock readings, open-position count, live tick) as an explicit input and
  the cross-cycle global `last_trade_time` as explicit state.
* `place_order` keeps the retcode classification of the source's surviving
  lines; its missing head (request construction, dry-run branch) is
  modelled from the spec, as is the missing `estimate_lots_by_sl`.
* The whole `main_loop` (connect, try/while/except/finally, disconnect) is
  `main_loop_run`, driven by a finite list of per-iteration events so that
  interruption and error propagation are explicit.
-/

/-- Model of a Python float as used by the robot: NaN, +inf, -inf, or an
exact rational finite value. -/
inductive FP where
  | nan   : FP
  | pinf  : FP
  | ninf  : FP
  | fin   : ℚ → FP
deriving DecidableEq, Repr

/-- IEEE negation on the float model. -/
def fneg : FP → FP
  | .nan => .nan
  | .pinf => .ninf
  | .ninf => .pinf
  | .fin a => .fin (-a)

/-- IEEE addition on the float model (finite part exact). -/
def fadd : FP → FP → FP
  | .nan, _ => .nan
  | _, .nan => .nan
  | .pinf, .ninf => .nan
  | .ninf, .pinf => .nan
  | .pinf, _ => .pinf
  | _, .pinf => .pinf
  | .ninf, _ => .ninf
  | _, .ninf => .ninf
  | .fin a, .fin b => .fin (a + b)

/-- IEEE subtraction on the float model. -/
def fsub (x y : FP) : FP := fadd x (fneg y)

/-- IEEE multiplication on the float model: `0 * inf = NaN`. -/
def fmul : FP → FP → FP
  | .nan, _ => .nan
  | _, .nan => .nan
  | .pinf, .pinf => .pinf
  | .pinf, .ninf => .ninf
  | .ninf, .pinf => .ninf
  | .ninf, .ninf => .pinf
  | .pinf, .fin b => if b = 0 then .nan else if 0 < b then .pinf else .ninf
  | .fin a, .pinf => if a = 0 then .nan else if 0 < a then .pinf else .ninf
  | .ninf, .fin b => if b = 0 then .nan else if 0 < b then .ninf else .pinf
  | .fin a, .ninf => if a = 0 then .nan else if 0 < a then .ninf else .pinf
  | .fin a, .fin b => .fin (a * b)

/-- IEEE division on the float model (division by the positive zero). -/
def fdiv : FP → FP → FP
  | .nan, _ => .nan
  | _, .nan => .nan
  | .pinf, .pinf => .nan
  | .pinf, .ninf => .nan
  | .ninf, .pinf => .nan
  | .ninf, .ninf => .nan
  | .pinf, .fin b => if 0 ≤ b then .pinf else .ninf
  | .ninf, .fin b => if 0 ≤ b then .ninf else .pinf
  | .fin _, .pinf => .fin 0
  | .fin _, .ninf => .fin 0
  | .fin a, .fin b =>
      if b = 0 then (if a = 0 then .nan else if 0 < a then .pinf else .ninf)
      else .fin (a / b)

/-- Absolute value on the float model. -/
def fabs : FP → FP
  | .nan => .nan
  | .pinf => .pinf
  | .ninf => .pinf
  | .fin a => .fin (if a < 0 then -a else a)

/-- Strict comparison of Python floats: any comparison with NaN is false. -/
def flt : FP → FP → Bool
  | .nan, _ => false
  | _, .nan => false
  | .ninf, .ninf => false
  | .ninf, _ => true
  | .pinf, _ => false
  | .fin _, .pinf => true
  | .fin _, .ninf => false
  | .fin a, .fin b => decide (a < b)

/-- Non-strict comparison of Python floats: any comparison with NaN is
false. -/
def fle : FP → FP → Bool
  | .nan, _ => false
  | _, .nan => false
  | .ninf, _ => true
  | _, .pinf => true
  | .pinf, _ => false
  | .fin _, .ninf => false
  | .fin a, .fin b => decide (a ≤ b)

/-- Predicate matching `np.isnan`. -/
def fIsNan : FP → Bool
  | .nan => true
  | _ => false

/-- Finiteness predicate on the float model. -/
def fIsFinite : FP → Bool
  | .fin _ => true
  | _ => false

/-- The configuration entries of `CONFIG` read by the embedded code.
Times are rational seconds. -/
structure Config where
  symbol : String
  min_seconds_between_trades : ℚ
  max_positions : Nat
  atr_multiplier_sl : FP
  atr_multiplier_tp : FP
  dry_run : Bool
deriving DecidableEq, Repr

/-- A live quote as returned by `mt5.symbol_info_tick`. -/
structure Tick where
  bid : FP
  ask : FP
deriving DecidableEq, Repr

/-- The external data one iteration of `main_loop` consumes: the indicator
values of the latest bar of the fetched series, the generated signal
(`None` or a side string), the two `datetime.now()` readings (`now` at the
throttle check, `now2` at the post-submission timestamp update), the broker's
open-position count and the live tick. -/
structure CycleInput where
  atr : FP
  close : FP
  signal : Option String
  now : ℚ
  openPositions : Nat
  tick : Tick
  now2 : ℚ
deriving DecidableEq, Repr

/-- The cross-cycle mutable state: the global `last_trade_time`
(`none` when unset). -/
structure LoopState where
  lastTradeTime : Option ℚ
deriving DecidableEq, Repr

/-- The data `place_order` receives at the call site on line 78. -/
structure OrderRequest where
  symbol : String
  side : String
  volume : FP
  entry : FP
  sl : FP
  tp : FP
deriving DecidableEq, Repr

/-- The broker's reply to `mt5.order_send`. -/
structure BrokerReply where
  retcode : ℤ
  order : ℤ
  comment : String
deriving DecidableEq, Repr

/-- The broker's success sentinel `mt5.TRADE_RETCODE_DONE`. Its numeric
value is the platform constant; only its identity matters. -/
def TRADE_RETCODE_DONE : ℤ := 10009

/-- Classified outcome of an order submission. -/
structure OrderResult where
  accepted : Bool
  retcode : ℤ
  skipped : Bool
deriving DecidableEq, Repr

/-- What one call of `place_order` did: the classified result, the list of
requests actually sent over the network (empty or a singleton), and the
lines it printed. -/
structure PlaceOutcome where
  result : OrderResult
  sends : List OrderRequest
  logs : List String
deriving DecidableEq, Repr

/-- Function `place_order`. The surviving source lines 2-7 call `mt5.order_send`,
classify the reply (`retcode != mt5.TRADE_RETCODE_DONE` is a logged failure,
otherwise a logged placement) and return.
Modelled from the spec: the function's missing head, which per the spec's
`dryRun` contract must not invoke the real submission path when `dry_run`
is set and instead returns a simulated OrderResult marked as skipped. -/
def place_order (dryRun : Bool) (req : OrderRequest)
    (broker : OrderRequest → BrokerReply) : PlaceOutcome :=
  if dryRun then
    { result := { accepted := false, retcode := 0, skipped := true }
      sends := []
      logs := ["dry run: order skipped"] }
  else
    let r := broker req
    if r.retcode ≠ TRADE_RETCODE_DONE then
      { result := { accepted := false, retcode := r.retcode, skipped := false }
        sends := [req]
        logs := ["Order failed: " ++ toString r.retcode ++ " - " ++ r.comment] }
    else
      { result := { accepted := true, retcode := r.retcode, skipped := false }
        sends := [req]
        logs := ["Order placed"] }

/-- Modelled from the spec: `estimate_lots_by_sl` is missing from src.
Per spec section 4.3, volume is riskPerTrade divided by the product of the
stop distance `|entry − stopLoss|` and the point value, with the sentinel
volume 0 (no trade) when the stop distance is ≤ 0. -/
def estimate_lots_by_sl (riskPerTrade pointValue : FP) (entry sl : FP) : FP :=
  let dist := fabs (fsub entry sl)
  if fle dist (FP.fin 0) then FP.fin 0
  else fdiv riskPerTrade (fmul dist pointValue)

/-- Line 33's throttle condition:
`last_trade_time and (now - last_trade_time).total_seconds() < CONFIG[..]`.
An unset (`None`, falsy) `last_trade_time` makes the whole condition false. -/
def timeGateHit (ltt : Option ℚ) (now minS : ℚ) : Bool :=
  match ltt with
  | none => false
  | some t => decide (now - t < minS)

/-- Everything one iteration of the loop body did, for stating properties:
the updated `last_trade_time`, which guard (if any) skipped the cycle,
whether the live tick was fetched, the computed (entry, stop, target)
prices and lot size when reached, the request passed to `place_order` (if
invoked) with its outcome, and the `time.sleep` duration ending the
iteration. -/
structure CycleResult where
  newLastTradeTime : Option ℚ
  timeGateRejected : Bool
  posGateRejected : Bool
  atrRejected : Bool
  quoteFetched : Bool
  priced : Option (FP × FP × FP)
  computedLots : Option FP
  submitted : Option OrderRequest
  orderOutcome : Option PlaceOutcome
  sleepSeconds : ℚ
deriving DecidableEq, Repr

/-- A skipped iteration: state unchanged, nothing fetched or computed,
`time.sleep(5)`; the guard flags are filled in by the caller. -/
def skipCycle (st : LoopState) : CycleResult :=
  { newLastTradeTime := st.lastTradeTime
    timeGateRejected := false
    posGateRejected := false
    atrRejected := false
    quoteFetched := false
    priced := none
    computedLots := none
    submitted := none
    orderOutcome := none
    sleepSeconds := 5 }

/-- Source lines 59-66: the (entry, stop, target) triple. A buy enters at
the ask with the stop `atr_multiplier_sl * atr` below and the target
`atr_multiplier_tp * atr` above; any other side enters at the bid with the
stop above and the target below. -/
def priceLevels (cfg : Config) (atr : FP) (tick : Tick) (s : String) :
    FP × FP × FP :=
  if s = "buy" then
    (tick.ask, fsub tick.ask (fmul cfg.atr_multiplier_sl atr),
      fadd tick.ask (fmul cfg.atr_multiplier_tp atr))
  else
    (tick.bid, fadd tick.bid (fmul cfg.atr_multiplier_sl atr),
      fsub tick.bid (fmul cfg.atr_multiplier_tp atr))

/-- Source lines 47-79: the body of `if signal is not None:` for a concrete
side string `s` — the ATR validity guard, price-level computation off the
live tick, lot estimation, the `lots <= 0` skip, and order placement with
the unconditional `last_trade_time` update. -/
def attemptTrade (cfg : Config) (est : FP → FP → FP)
    (broker : OrderRequest → BrokerReply) (st : LoopState) (inp : CycleInput)
    (s : String) : CycleResult :=
  if fIsNan inp.atr || fle inp.atr (FP.fin 0) then
    { skipCycle st with atrRejected := true }
  else
    let lv := priceLevels cfg inp.atr inp.tick s
    let entry := lv.1
    let sl := lv.2.1
    let tp := lv.2.2
    let lots := est entry sl
    if fle lots (FP.fin 0) then
      { skipCycle st with
        quoteFetched := true
        priced := some (entry, sl, tp)
        computedLots := some lots }
    else
      let req : OrderRequest :=
        { symbol := cfg.symbol
          side := s
          volume := lots
          entry := entry
          sl := sl
          tp := tp }
      { newLastTradeTime := some inp.now2
        timeGateRejected := false
        posGateRejected := false
        atrRejected := false
        quoteFetched := true
        priced := some (entry, sl, tp)
        computedLots := some lots
        submitted := some req
        orderOutcome := some (place_order cfg.dry_run req broker)
        sleepSeconds := 10 }

/-- One iteration of `main_loop`'s `while True` body (source lines 23-83):
throttle gate, open-positions gate, then — when a signal is present — the
trade attempt; an absent signal falls through to the final
`time.sleep(10)`. -/
def cycle (cfg : Config) (est : FP → FP → FP)
    (broker : OrderRequest → BrokerReply) (st : LoopState)
    (inp : CycleInput) : CycleResult :=
  if timeGateHit st.lastTradeTime inp.now cfg.min_seconds_between_trades then
    { skipCycle st with timeGateRejected := true }
  else if cfg.max_positions ≤ inp.openPositions then
    { skipCycle st with posGateRejected := true }
  else
    match inp.signal with
    | none => { skipCycle st with sleepSeconds := 10 }
    | some s => attemptTrade cfg est broker st inp s

/-- What happens to one iteration from the outside: it runs normally on its
external data, a `KeyboardInterrupt` arrives, or an exception escapes one of
the external calls of the iteration. -/
inductive CycleEvent where
  | normal (inp : CycleInput)
  | interrupt
  | failure (msg : String)
deriving DecidableEq, Repr

/-- Observable events of a `main_loop` run. -/
inductive TraceItem where
  | connected
  | ranCycle (r : CycleResult)
  | interruptedMsg
  | disconnected
deriving DecidableEq, Repr

/-- How a `main_loop` run left the `while True` loop: caught interrupt,
a propagating exception, or (model artifact) the supplied event list ran
out while the real loop would still be iterating. -/
inductive LoopOutcome where
  | interrupted
  | errored (msg : String)
  | stillRunning
deriving DecidableEq, Repr

/-- The `while True` part of `main_loop`, iterated over a finite list of
per-iteration events, threading `last_trade_time`. -/
def runCycles (cfg : Config) (est : FP → FP → FP)
    (broker : OrderRequest → BrokerReply) :
    LoopState → List CycleEvent → List TraceItem × LoopOutcome
  | _, [] => ([], .stillRunning)
  | st, e :: rest =>
    match e with
    | .interrupt => ([.interruptedMsg], .interrupted)
    | .failure m => ([], .errored m)
    | .normal inp =>
      let r := cycle cfg est broker st inp
      let (items, out) := runCycles cfg est broker ⟨r.newLastTradeTime⟩ rest
      (.ranCycle r :: items, out)

/-- Function `main_loop` (source lines 15-88): connect, run the loop inside
`try`, catch `KeyboardInterrupt`, and in all cases where control leaves the
`try` block run the `finally` clause, which disconnects. When the event
list runs out the real loop is still inside `try` and has not disconnected
yet. -/
def main_loop_run (cfg : Config) (est : FP → FP → FP)
    (broker : OrderRequest → BrokerReply) (events : List CycleEvent) :
    List TraceItem × LoopOutcome :=
  let p := runCycles cfg est broker ⟨none⟩ events
  match p.2 with
  | .stillRunning => (TraceItem.connected :: p.1, .stillRunning)
  | .interrupted =>
    (TraceItem.connected :: (p.1 ++ [TraceItem.disconnected]), .interrupted)
  | .errored m =>
    (TraceItem.connected :: (p.1 ++ [TraceItem.disconnected]), .errored m)

/-! Concrete scenario data used to exercise the embedded code. -/

/-- A concrete lot estimator: risk 1 per trade, point value 1. -/
def estDefault : FP → FP → FP := estimate_lots_by_sl (FP.fin 1) (FP.fin 1)

/-- A broker that accepts every request. -/
def brokerOk : OrderRequest → BrokerReply :=
  fun _ => { retcode := TRADE_RETCODE_DONE, order := 1, comment := "ok" }

/-- A broker that rejects every request with retcode 1. -/
def brokerRej : OrderRequest → BrokerReply :=
  fun _ => { retcode := 1, order := 0, comment := "rejected" }

/-- A baseline configuration. -/
def cfgBase : Config :=
  { symbol := "EURUSD"
    min_seconds_between_trades := 60
    max_positions := 5
    atr_multiplier_sl := FP.fin 1
    atr_multiplier_tp := FP.fin 1
    dry_run := false }

/-- A baseline cycle input: valid ATR, buy signal, finite quote. -/
def inpBase : CycleInput :=
  { atr := FP.fin 1
    close := FP.fin 10
    signal := some "buy"
    now := 100
    openPositions := 0
    tick := { bid := FP.fin 9, ask := FP.fin 10 }
    now2 := 105 }

/-- A configuration whose stop multiplier is zero (target multiplier 2). -/
def cfgZeroSl : Config :=
  { cfgBase with atr_multiplier_sl := FP.fin 0, atr_multiplier_tp := FP.fin 2 }

/-- The baseline input with an ATR of +inf. -/
def inpPinfAtr : CycleInput := { inpBase with atr := FP.pinf }

/-- The baseline input with a NaN quote. -/
def inpNanTick : CycleInput :=
  { inpBase with tick := { bid := FP.nan, ask := FP.nan } }

/-- The baseline input with a NaN ATR. -/
def inpNanAtr : CycleInput := { inpBase with atr := FP.nan }

/-- A concrete order request. -/
def reqBase : OrderRequest :=
  { symbol := "EURUSD"
    side := "buy"
    volume := FP.fin 1
    entry := FP.fin 10
    sl := FP.fin 9
    tp := FP.fin 11 }

/-- A run that completes one normal iteration and is then interrupted. -/
def eventsIntr : List CycleEvent := [.normal inpBase, .interrupt]

/-! Arithmetic facts about the float model. -/

/-- The product of two strictly positive floats is strictly positive. -/
theorem fmul_pos_of_pos {x y : FP} (hx : flt (FP.fin 0) x = true)
    (hy : flt (FP.fin 0) y = true) : flt (FP.fin 0) (fmul x y) = true := by
  cases x with
  | nan => simp [flt] at hx
  | ninf => simp [flt] at hx
  | pinf =>
    cases y with
    | nan => simp [flt] at hy
    | ninf => simp [flt] at hy
    | pinf => rfl
    | fin b =>
      simp only [flt, decide_eq_true_eq] at hy
      simp [fmul, flt, hy, hy.ne']
  | fin a =>
    simp only [flt, decide_eq_true_eq] at hx
    cases y with
    | nan => simp [flt] at hy
    | ninf => simp [flt] at hy
    | pinf => simp [fmul, flt, hx, hx.ne']
    | fin b =>
      simp only [flt, decide_eq_true_eq] at hy
      simp [fmul, flt, mul_pos hx hy]

/-- Subtracting a strictly positive float from a finite value moves it
strictly down. -/
theorem flt_fsub_fin_of_pos {a : ℚ} {x : FP} (hx : flt (FP.fin 0) x = true) :
    flt (fsub (FP.fin a) x) (FP.fin a) = true := by
  cases x with
  | nan => simp [flt] at hx
  | ninf => simp [flt] at hx
  | pinf => rfl
  | fin q =>
    simp only [flt, decide_eq_true_eq] at hx
    simp only [fsub, fneg, fadd, flt, decide_eq_true_eq]
    linarith

/-- Adding a strictly positive float to a finite value moves it strictly
up. -/
theorem flt_fadd_fin_of_pos {a : ℚ} {x : FP} (hx : flt (FP.fin 0) x = true) :
    flt (FP.fin a) (fadd (FP.fin a) x) = true := by
  cases x with
  | nan => simp [flt] at hx
  | ninf => simp [flt] at hx
  | pinf => rfl
  | fin q =>
    simp only [flt, decide_eq_true_eq] at hx
    simp only [fadd, flt, decide_eq_true_eq]
    linarith

/-! The claims. -/

/-- C2: in every cycle whose `last_trade_time` is set to `t` with
`now - t < min_seconds_between_trades`, the cycle is skipped at the time
gate before the quote fetch and sizing, nothing is submitted, and the
state is unchanged. -/
theorem c2_time_gate_blocks_cycle (cfg : Config) (est : FP → FP → FP)
    (broker : OrderRequest → BrokerReply) (st : LoopState) (inp : CycleInput)
    (t : ℚ) (h1 : st.lastTradeTime = some t)
    (h2 : inp.now - t < cfg.min_seconds_between_trades) :
    (cycle cfg est broker st inp).timeGateRejected = true ∧
    (cycle cfg est broker st inp).quoteFetched = false ∧
    (cycle cfg est broker st inp).computedLots = none ∧
    (cycle cfg est broker st inp).submitted = none ∧
    (cycle cfg est broker st inp).newLastTradeTime = st.lastTradeTime := by
  have hg : timeGateHit st.lastTradeTime inp.now
      cfg.min_seconds_between_trades = true := by
    simp [timeGateHit, h1, h2]
  simp [cycle, hg, skipCycle]

/-- Witness for C2: with the last trade 5 seconds ago and a 60 second
minimum, the baseline cycle submits nothing. -/
theorem c2_time_gate_blocks_cycle_witness :
    (cycle cfgBase estDefault brokerOk ⟨some 95⟩ inpBase).timeGateRejected
        = true ∧
    (cycle cfgBase estDefault brokerOk ⟨some 95⟩ inpBase).quoteFetched
        = false ∧
    (cycle cfgBase estDefault brokerOk ⟨some 95⟩ inpBase).computedLots
        = none ∧
    (cycle cfgBase estDefault brokerOk ⟨some 95⟩ inpBase).submitted = none ∧
    (cycle cfgBase estDefault brokerOk ⟨some 95⟩ inpBase).newLastTradeTime
        = (LoopState.mk (some 95)).lastTradeTime :=
  c2_time_gate_blocks_cycle cfgBase estDefault brokerOk ⟨some 95⟩ inpBase 95
    rfl (by norm_num [cfgBase, inpBase])

/-- C3: in every cycle whose open-position count has reached
`max_positions`, the cycle is skipped before the quote fetch and sizing and
nothing is submitted. -/
theorem c3_exposure_gate_blocks_cycle (cfg : Config) (est : FP → FP → FP)
    (broker : OrderRequest → BrokerReply) (st : LoopState) (inp : CycleInput)
    (h : cfg.max_positions ≤ inp.openPositions) :
    (cycle cfg est broker st inp).quoteFetched = false ∧
    (cycle cfg est broker st inp).computedLots = none ∧
    (cycle cfg est broker st inp).submitted = none ∧
    (cycle cfg est broker st inp).newLastTradeTime = st.lastTradeTime := by
  cases hg : timeGateHit st.lastTradeTime inp.now
      cfg.min_seconds_between_trades <;>
    simp [cycle, hg, h, skipCycle]

/-- Witness for C3: with 5 open positions against a maximum of 5, the
baseline cycle submits nothing. -/
theorem c3_exposure_gate_blocks_cycle_witness :
    (cycle cfgBase estDefault brokerOk ⟨none⟩
      { inpBase with openPositions := 5 }).quoteFetched = false ∧
    (cycle cfgBase estDefault brokerOk ⟨none⟩
      { inpBase with openPositions := 5 }).computedLots = none ∧
    (cycle cfgBase estDefault brokerOk ⟨none⟩
      { inpBase with openPositions := 5 }).submitted = none ∧
    (cycle cfgBase estDefault brokerOk ⟨none⟩
      { inpBase with openPositions := 5 }).newLastTradeTime
        = (LoopState.mk none).lastTradeTime :=
  c3_exposure_gate_blocks_cycle cfgBase estDefault brokerOk ⟨none⟩
    { inpBase with openPositions := 5 } (by norm_num [cfgBase, inpBase])

/-- Counterexample to C1 as stated: an ATR of +inf is non-finite, yet the
guard `np.isnan(atr) or atr <= 0` does not catch it; with a zero stop
multiplier the stop price becomes NaN, the estimated lot size becomes NaN,
the `lots <= 0` check is false on NaN, and `place_order` is invoked — an
order request is constructed and submitted in this cycle. -/
theorem c1_counterexample_pinf_atr_submits :
    fIsFinite inpPinfAtr.atr = false ∧
    fIsNan inpPinfAtr.atr = false ∧
    fle inpPinfAtr.atr (FP.fin 0) = false ∧
    (cycle cfgZeroSl estDefault brokerOk ⟨none⟩ inpPinfAtr).submitted.isSome
      = true := by
  decide

/-- C1 (amended): in every cycle whose latest-bar ATR is NaN or ≤ 0 — the
condition the source guard actually tests, which covers -inf but not
+inf — no order request is constructed and `place_order` is not invoked. -/
theorem c1_nan_or_nonpos_atr_never_submits (cfg : Config)
    (est : FP → FP → FP) (broker : OrderRequest → BrokerReply)
    (st : LoopState) (inp : CycleInput)
    (h : fIsNan inp.atr = true ∨ fle inp.atr (FP.fin 0) = true) :
    (cycle cfg est broker st inp).submitted = none ∧
    (cycle cfg est broker st inp).orderOutcome = none := by
  have hc : (fIsNan inp.atr || fle inp.atr (FP.fin 0)) = true := by
    rcases h with h | h <;> simp [h]
  cases hg : timeGateHit st.lastTradeTime inp.now
      cfg.min_seconds_between_trades with
  | true => simp [cycle, hg, skipCycle]
  | false =>
    by_cases hp : cfg.max_positions ≤ inp.openPositions
    · simp [cycle, hg, hp, skipCycle]
    · cases hs : inp.signal with
      | none => simp [cycle, hg, hp, hs, skipCycle]
      | some s => simp [cycle, attemptTrade, hg, hp, hs, hc, skipCycle]

/-- Witness for C1 (amended): a NaN ATR cycle submits nothing. -/
theorem c1_nan_or_nonpos_atr_never_submits_witness :
    (cycle cfgBase estDefault brokerOk ⟨none⟩ inpNanAtr).submitted = none ∧
    (cycle cfgBase estDefault brokerOk ⟨none⟩ inpNanAtr).orderOutcome
      = none :=
  c1_nan_or_nonpos_atr_never_submits cfgBase estDefault brokerOk ⟨none⟩
    inpNanAtr (Or.inl (by decide))

/-- C6: the cycle updates `last_trade_time` to the post-submission clock
reading exactly when an order submission attempt was made — whatever the
broker replied — and leaves it unchanged in every other situation. -/
theorem c6_last_trade_time_updated_iff_submitted (cfg : Config)
    (est : FP → FP → FP) (broker : OrderRequest → BrokerReply)
    (st : LoopState) (inp : CycleInput) :
    (cycle cfg est broker st inp).newLastTradeTime =
      (if (cycle cfg est broker st inp).submitted.isSome then some inp.now2
       else st.lastTradeTime) := by
  cases hg : timeGateHit st.lastTradeTime inp.now
      cfg.min_seconds_between_trades with
  | true => simp [cycle, hg, skipCycle]
  | false =>
    by_cases hp : cfg.max_positions ≤ inp.openPositions
    · simp [cycle, hg, hp, skipCycle]
    · cases hs : inp.signal with
      | none => simp [cycle, hg, hp, hs, skipCycle]
      | some s =>
        by_cases hc : (fIsNan inp.atr || fle inp.atr (FP.fin 0)) = true
        · simp [cycle, attemptTrade, hg, hp, hs, hc, skipCycle]
        · have hc' : (fIsNan inp.atr || fle inp.atr (FP.fin 0)) = false := by
            simpa using hc
          by_cases hl : fle (est (priceLevels cfg inp.atr inp.tick s).1
              (priceLevels cfg inp.atr inp.tick s).2.1) (FP.fin 0) = true
          · simp [cycle, attemptTrade, hg, hp, hs, hc', hl, skipCycle]
          · have hl' : fle (est (priceLevels cfg inp.atr inp.tick s).1
                (priceLevels cfg inp.atr inp.tick s).2.1) (FP.fin 0)
                  = false := by simpa using hl
            simp [cycle, attemptTrade, hg, hp, hs, hc', hl', skipCycle]

/-- C8: in every cycle whose computed lot size is ≤ 0, the cycle is
skipped as a normal outcome: nothing is submitted, `last_trade_time` is
unchanged, and the iteration ends in the 5-second delay before the next
cycle. -/
theorem c8_nonpos_lots_skip_cycle (cfg : Config) (est : FP → FP → FP)
    (broker : OrderRequest → BrokerReply) (st : LoopState) (inp : CycleInput)
    (l : FP) (hl : (cycle cfg est broker st inp).computedLots = some l)
    (hle : fle l (FP.fin 0) = true) :
    (cycle cfg est broker st inp).submitted = none ∧
    (cycle cfg est broker st inp).newLastTradeTime = st.lastTradeTime ∧
    (cycle cfg est broker st inp).sleepSeconds = 5 := by
  cases hg : timeGateHit st.lastTradeTime inp.now
      cfg.min_seconds_between_trades with
  | true => simp [cycle, hg, skipCycle] at hl
  | false =>
    by_cases hp : cfg.max_positions ≤ inp.openPositions
    · simp [cycle, hg, hp, skipCycle] at hl
    · cases hs : inp.signal with
      | none => simp [cycle, hg, hp, hs, skipCycle] at hl
      | some s =>
        by_cases hc : (fIsNan inp.atr || fle inp.atr (FP.fin 0)) = true
        · simp [cycle, attemptTrade, hg, hp, hs, hc, skipCycle] at hl
        · have hc' : (fIsNan inp.atr || fle inp.atr (FP.fin 0)) = false := by
            simpa using hc
          by_cases hlo : fle (est (priceLevels cfg inp.atr inp.tick s).1
              (priceLevels cfg inp.atr inp.tick s).2.1) (FP.fin 0) = true
          · simp [cycle, attemptTrade, hg, hp, hs, hc', hlo, skipCycle]
          · have hlo' : fle (est (priceLevels cfg inp.atr inp.tick s).1
                (priceLevels cfg inp.atr inp.tick s).2.1) (FP.fin 0)
                  = false := by simpa using hlo
            simp [cycle, attemptTrade, hg, hp, hs, hc', hlo',
              skipCycle] at hl
            rw [← hl] at hle
            rw [hle] at hlo'
            exact absurd hlo' (by simp)

/-- Witness for C8: an infinite stop distance estimates to 0 lots and the
cycle skips without submitting. -/
theorem c8_nonpos_lots_skip_cycle_witness :
    (cycle cfgBase estDefault brokerOk ⟨none⟩ inpPinfAtr).submitted = none ∧
    (cycle cfgBase estDefault brokerOk ⟨none⟩ inpPinfAtr).newLastTradeTime
      = (LoopState.mk none).lastTradeTime ∧
    (cycle cfgBase estDefault brokerOk ⟨none⟩ inpPinfAtr).sleepSeconds = 5 :=
  c8_nonpos_lots_skip_cycle cfgBase estDefault brokerOk ⟨none⟩ inpPinfAtr
    (FP.fin 0) (by decide) (by decide)

/-- C5: with `dry_run` set, `place_order` performs no real broker call —
its result does not depend on the broker at all, the list of requests sent
over the network is empty — and the returned result is the simulated one
marked as skipped. -/
theorem c5_dry_run_no_real_submission (req : OrderRequest)
    (b1 b2 : OrderRequest → BrokerReply) :
    place_order true req b1 = place_order true req b2 ∧
    (place_order true req b1).sends = [] ∧
    (place_order true req b1).result.skipped = true :=
  ⟨rfl, rfl, rfl⟩

/-- C7: a real order submission is classified as accepted exactly when the
broker's return code equals `TRADE_RETCODE_DONE`; any other code yields a
logged failure line; in either case exactly one request is sent — the same
request is never retried. -/
theorem c7_retcode_classification (req : OrderRequest)
    (broker : OrderRequest → BrokerReply) :
    ((place_order false req broker).result.accepted = true ↔
      (broker req).retcode = TRADE_RETCODE_DONE) ∧
    (place_order false req broker).sends = [req] ∧
    ((broker req).retcode ≠ TRADE_RETCODE_DONE →
      (place_order false req broker).logs =
        ["Order failed: " ++ toString (broker req).retcode ++ " - " ++
          (broker req).comment]) := by
  by_cases h : (broker req).retcode = TRADE_RETCODE_DONE <;>
    simp [place_order, h]

/-- Witness for C7: a broker replying with retcode 1 produces the logged
failure line. -/
theorem c7_retcode_classification_witness :
    (place_order false reqBase brokerRej).logs =
      ["Order failed: " ++ toString (brokerRej reqBase).retcode ++ " - " ++
        (brokerRej reqBase).comment] :=
  (c7_retcode_classification reqBase brokerRej).2.2 (by decide)

/-- Counterexample to C4 as stated: a cycle that reaches price-level
computation with ATR 1 > 0 and both multipliers 1 > 0 but a NaN quote
computes a NaN stop-loss that is not strictly below the NaN entry. -/
theorem c4_counterexample_nan_entry :
    flt (FP.fin 0) inpNanTick.atr = true ∧
    flt (FP.fin 0) cfgBase.atr_multiplier_sl = true ∧
    flt (FP.fin 0) cfgBase.atr_multiplier_tp = true ∧
    inpNanTick.signal = some "buy" ∧
    (cycle cfgBase estDefault brokerOk ⟨none⟩ inpNanTick).priced
      = some (FP.nan, FP.nan, FP.nan) ∧
    flt FP.nan FP.nan = false := by
  decide

/-- C4 (amended): in every cycle that reaches price-level computation with
ATR > 0, positive stop and target multipliers, and a finite quoted entry
price: a buy computes its stop strictly below and its target strictly above
the entry, and a sell computes its target strictly below and its stop
strictly above the entry. -/
theorem c4_bracket_prices_ordered (cfg : Config) (est : FP → FP → FP)
    (broker : OrderRequest → BrokerReply) (st : LoopState) (inp : CycleInput)
    (e slv tpv : FP) (q : ℚ)
    (hm1 : flt (FP.fin 0) cfg.atr_multiplier_sl = true)
    (hm2 : flt (FP.fin 0) cfg.atr_multiplier_tp = true)
    (ha : flt (FP.fin 0) inp.atr = true)
    (hp : (cycle cfg est broker st inp).priced = some (e, slv, tpv))
    (he : e = FP.fin q) :
    (inp.signal = some "buy" → flt slv e = true ∧ flt e tpv = true) ∧
    (inp.signal = some "sell" → flt tpv e = true ∧ flt e slv = true) := by
  cases hg : timeGateHit st.lastTradeTime inp.now
      cfg.min_seconds_between_trades with
  | true => simp [cycle, hg, skipCycle] at hp
  | false =>
    by_cases hpos : cfg.max_positions ≤ inp.openPositions
    · simp [cycle, hg, hpos, skipCycle] at hp
    · cases hs : inp.signal with
      | none => simp [cycle, hg, hpos, hs, skipCycle] at hp
      | some s =>
        by_cases hc : (fIsNan inp.atr || fle inp.atr (FP.fin 0)) = true
        · simp [cycle, attemptTrade, hg, hpos, hs, hc, skipCycle] at hp
        · have hc' : (fIsNan inp.atr || fle inp.atr (FP.fin 0)) = false := by
            simpa using hc
          have hlv : priceLevels cfg inp.atr inp.tick s = (e, slv, tpv) := by
            by_cases hlo : fle (est (priceLevels cfg inp.atr inp.tick s).1
                (priceLevels cfg inp.atr inp.tick s).2.1) (FP.fin 0) = true
            · have hx := hp
              simp [cycle, attemptTrade, hg, hpos, hs, hc', hlo,
                skipCycle] at hx
              exact hx
            · have hlo' : fle (est (priceLevels cfg inp.atr inp.tick s).1
                  (priceLevels cfg inp.atr inp.tick s).2.1) (FP.fin 0)
                    = false := by simpa using hlo
              have hx := hp
              simp [cycle, attemptTrade, hg, hpos, hs, hc', hlo',
                skipCycle] at hx
              exact hx
          have h1 := congrArg (fun p => p.1) hlv
          have h2 := congrArg (fun p => p.2.1) hlv
          have h3 := congrArg (fun p => p.2.2) hlv
          simp only at h1 h2 h3
          constructor
          · intro hbuy
            have hsb : s = "buy" := Option.some.inj hbuy
            rw [priceLevels, if_pos hsb] at h1 h2 h3
            simp only at h1 h2 h3
            have hq : inp.tick.ask = FP.fin q := h1.trans he
            constructor
            · rw [← h2, he, hq]
              exact flt_fsub_fin_of_pos (fmul_pos_of_pos hm1 ha)
            · rw [← h3, he, hq]
              exact flt_fadd_fin_of_pos (fmul_pos_of_pos hm2 ha)
          · intro hsell
            have hss : s = "sell" := Option.some.inj hsell
            have hnb : ¬(s = "buy") := by rw [hss]; decide
            rw [priceLevels, if_neg hnb] at h1 h2 h3
            simp only at h1 h2 h3
            have hq : inp.tick.bid = FP.fin q := h1.trans he
            constructor
            · rw [← h3, he, hq]
              exact flt_fsub_fin_of_pos (fmul_pos_of_pos hm2 ha)
            · rw [← h2, he, hq]
              exact flt_fadd_fin_of_pos (fmul_pos_of_pos hm1 ha)

/-- Witness for C4 (amended): a buy cycle at entry 10 with an infinite ATR
brackets the finite entry between a stop of -inf and a target of +inf. -/
theorem c4_bracket_prices_ordered_witness :
    (inpPinfAtr.signal = some "buy" →
      flt FP.ninf (FP.fin 10) = true ∧ flt (FP.fin 10) FP.pinf = true) ∧
    (inpPinfAtr.signal = some "sell" →
      flt FP.pinf (FP.fin 10) = true ∧ flt (FP.fin 10) FP.ninf = true) :=
  c4_bracket_prices_ordered cfgBase estDefault brokerOk ⟨none⟩ inpPinfAtr
    (FP.fin 10) FP.ninf FP.pinf 10 (by decide) (by decide) (by decide)
    (by decide) (by decide)

/-- A trace of the shape the `finally` clause produces ends in the
disconnect event. -/
theorem connected_append_disconnected_getLast (l : List TraceItem) :
    (TraceItem.connected :: (l ++ [TraceItem.disconnected])).getLast?
      = some TraceItem.disconnected := by
  have he : TraceItem.connected :: (l ++ [TraceItem.disconnected])
      = (TraceItem.connected :: l) ++
          (TraceItem.disconnected :: ([] : List TraceItem)) := by simp
  rw [he, List.getLast?_append_cons]
  rfl

/-- C9: every run of `main_loop` that actually leaves the loop — by the
caught `KeyboardInterrupt` or by an error propagating out of a cycle —
ends its event trace with the disconnect performed by the `finally`
clause. -/
theorem c9_disconnect_on_every_exit (cfg : Config) (est : FP → FP → FP)
    (broker : OrderRequest → BrokerReply) (events : List CycleEvent)
    (h : (main_loop_run cfg est broker events).2 ≠ LoopOutcome.stillRunning) :
    (main_loop_run cfg est broker events).1.getLast?
      = some TraceItem.disconnected := by
  cases hout : (runCycles cfg est broker ⟨none⟩ events).2 with
  | stillRunning => exact absurd (by simp [main_loop_run, hout]) h
  | interrupted =>
    simp only [main_loop_run, hout]
    exact connected_append_disconnected_getLast _
  | errored m =>
    simp only [main_loop_run, hout]
    exact connected_append_disconnected_getLast _

/-- Witness for C9: a run with one normal iteration followed by an
interrupt ends with the disconnect event. -/
theorem c9_disconnect_on_every_exit_witness :
    (main_loop_run cfgBase estDefault brokerOk
      [CycleEvent.normal inpPinfAtr, CycleEvent.interrupt]).1.getLast?
      = some TraceItem.disconnected :=
  c9_disconnect_on_every_exit cfgBase estDefault brokerOk
    [CycleEvent.normal inpPinfAtr, CycleEvent.interrupt] (by decide)

/-- C10: with `last_trade_time` unset the time gate never rejects — the
falsy check on line 33 passes — and the whole cycle outcome is independent
of `min_seconds_between_trades`. -/
theorem c10_unset_last_trade_time_never_throttles (cfg : Config)
    (est : FP → FP → FP) (broker : OrderRequest → BrokerReply)
    (inp : CycleInput) (m1 m2 : ℚ) :
    (cycle { cfg with min_seconds_between_trades := m1 } est broker ⟨none⟩
        inp).timeGateRejected = false ∧
    cycle { cfg with min_seconds_between_trades := m1 } est broker ⟨none⟩ inp
      = cycle { cfg with min_seconds_between_trades := m2 } est broker
          ⟨none⟩ inp := by
  constructor
  · by_cases hp : cfg.max_positions ≤ inp.openPositions
    · simp [cycle, timeGateHit, hp, skipCycle]
    · cases hs : inp.signal with
      | none => simp [cycle, timeGateHit, hp, hs, skipCycle]
      | some s =>
        by_cases hc : (fIsNan inp.atr || fle inp.atr (FP.fin 0)) = true
        · simp [cycle, attemptTrade, timeGateHit, hp, hs, hc, skipCycle]
        · have hc' : (fIsNan inp.atr || fle inp.atr (FP.fin 0)) = false := by
            simpa using hc
          by_cases hlo : fle (est (priceLevels
              { cfg with min_seconds_between_trades := m1 } inp.atr
                inp.tick s).1
              (priceLevels { cfg with min_seconds_between_trades := m1 }
                inp.atr inp.tick s).2.1) (FP.fin 0) = true
          · simp [cycle, attemptTrade, timeGateHit, hp, hs, hc', hlo,
              skipCycle]
          · have hlo' : fle (est (priceLevels
                { cfg with min_seconds_between_trades := m1 } inp.atr
                  inp.tick s).1
                (priceLevels { cfg with min_seconds_between_trades := m1 }
                  inp.atr inp.tick s).2.1) (FP.fin 0) = false := by
              simpa using hlo
            simp [cycle, attemptTrade, timeGateHit, hp, hs, hc', hlo',
              skipCycle]
  · rfl
